import Mathlib

/-!
# Secure Document Link Sharing Platform — share lifecycle engine, verified model

A shallow embedding of the share-link lifecycle and validation engine of the
repository (`src/api/app/services/file_share_service.py` together with the
cache helpers in `src/api/app/core/redis_client.py` and the data model in
`src/api/app/models/database.py` / `schemas.py`), with theorems settling the
specification's claims about it.

Conventions of the embedding:
* timestamps are natural numbers (seconds); `datetime.utcnow()` becomes an
  explicit `now : Nat` argument;
* the relational store is a `Db` structure holding the list of `FileShare`
  rows and the append-only list of `AccessLog` rows; SQLAlchemy's
  `query(...).filter(...).first()` becomes `List.find?` with the same
  predicate, and a committed row mutation becomes an update-by-id map over
  the list;
* the Redis cache is an association list from keys to stored values; a
  stored value is either a JSON-serialized record (`StoredVal.record`) or a
  plain string on which `json.loads` raises (`StoredVal.rawNonJson`),
  mirroring that `cache_set` stores `json.dumps(value)` for dicts and raw
  strings as-is;
* the unique index on `share_token` makes `db.commit()` of a colliding
  insert raise; `create_share` therefore returns `Except Unit`.
-/

namespace SecureShare

/-- Row of the `file_shares` table (`FileShare` in `models/database.py`). -/
structure FileShare where
  id : Nat
  userId : Nat
  fileId : String
  fileName : String
  fileSize : Nat
  fileHash : String
  shareToken : String
  isActive : Bool
  downloadCount : Nat
  oneTimeAccess : Bool
  expiresAt : Option Nat
  createdAt : Nat
deriving Repr, DecidableEq

/-- Row of the `access_logs` table (`AccessLog` in `models/database.py`). -/
structure AccessLog where
  fileShareId : Nat
  ipAddress : Option String
  userAgent : Option String
  success : Bool
deriving Repr, DecidableEq

/-- The compact projection dict cached under `share_token:{token}`
(the dict literal built in `create_share` and `validate_share_token`). -/
structure ShareInfo where
  shareId : Nat
  fileId : String
  userId : Nat
  oneTimeAccess : Bool
  isActive : Bool
deriving Repr, DecidableEq

/-- The durable relational store: share rows plus append-only access logs. -/
structure Db where
  shares : List FileShare
  accessLogs : List AccessLog
deriving Repr, DecidableEq

/-- A value held by the Redis cache.  `cache_set` serializes dicts with
`json.dumps` (decodable back into the structured record) and stores plain
strings as-is; `rawNonJson s` stands for a stored string on which
`json.loads` raises `JSONDecodeError`. -/
inductive StoredVal where
  | record (info : ShareInfo)
  | rawNonJson (s : String)
deriving Repr, DecidableEq

/-- One key of the Redis store, with the TTL (seconds) passed to `setex`. -/
structure CacheEntry where
  key : String
  val : StoredVal
  ttl : Nat
deriving Repr, DecidableEq

/-- The Redis cache as an association list (at most one live entry per key). -/
abbrev Cache := List CacheEntry

/-- `redis_client.setex(key, expire, ...)`: overwrite the key's entry. -/
def cache_set (c : Cache) (key : String) (v : StoredVal) (expire : Nat) : Cache :=
  ⟨key, v, expire⟩ :: c.filter (fun e => e.key != key)

/-- `redis_client.get(key)`: the raw stored value, if the key is live. -/
def cache_lookup (c : Cache) (key : String) : Option StoredVal :=
  (c.find? (fun e => e.key == key)).map (fun e => e.val)

/-- `cache_get` in `core/redis_client.py`: fetch the raw value; a falsy
(empty) value yields `None`; otherwise try `json.loads`, and on
`JSONDecodeError` return the raw string itself. -/
def cache_get (c : Cache) (key : String) : Option (ShareInfo ⊕ String) :=
  match cache_lookup c key with
  | none => none
  | some (.record info) => some (.inl info)
  | some (.rawNonJson s) => if s = "" then none else some (.inr s)

/-- `cache_delete` in `core/redis_client.py`. -/
def cache_delete (c : Cache) (key : String) : Cache :=
  c.filter (fun e => e.key != key)

/-- Durable store plus cache: the shared state every operation acts on. -/
structure SysState where
  db : Db
  cache : Cache
deriving Repr, DecidableEq

/-- Body of `CreateShareRequest` (`models/schemas.py`);
`expires_in_hours : Optional[int] = None`. -/
structure CreateShareRequest where
  fileId : String
  fileName : String
  fileSize : Nat
  fileHash : String
  oneTimeAccess : Bool := false
  expiresInHours : Option Nat := none
deriving Repr, DecidableEq

/-- Commit a mutation of the row(s) with the given id (SQLAlchemy mutates the
loaded row in place and `db.commit()` writes it back by primary key). -/
def updateShare (db : Db) (sid : Nat) (f : FileShare → FileShare) : Db :=
  { db with shares := db.shares.map (fun s => if s.id = sid then f s else s) }

/-- Fresh surrogate key assigned by the store on insert. -/
def nextId (db : Db) : Nat :=
  (db.shares.map (fun s => s.id)).foldr Nat.max 0 + 1

/-- The cache key used for a token (`f"share_token:{share_token}"`). -/
def tokenKey (token : String) : String := "share_token:" ++ token

/-- `FileShareService.create_share`.  Computes `expires_at` with Python's
truthiness test `if share_request.expires_in_hours:` (so the value `0` is
treated like absence), inserts the row — the unique index on `share_token`
makes the commit raise on a collision, modelled as `.error ()` — and caches
the projection under the token with a 3600-second TTL. -/
def create_share (st : SysState) (now : Nat) (user_id : Nat)
    (req : CreateShareRequest) (share_token : String) :
    Except Unit (SysState × FileShare) :=
  let expires_at : Option Nat :=
    match req.expiresInHours with
    | none => none
    | some h => if h = 0 then none else some (now + h * 3600)
  if st.db.shares.any (fun s => s.shareToken == share_token) then
    .error ()
  else
    let db_share : FileShare :=
      { id := nextId st.db
        userId := user_id
        fileId := req.fileId
        fileName := req.fileName
        fileSize := req.fileSize
        fileHash := req.fileHash
        shareToken := share_token
        isActive := true
        downloadCount := 0
        oneTimeAccess := req.oneTimeAccess
        expiresAt := expires_at
        createdAt := now }
    let cache' := cache_set st.cache (tokenKey share_token)
      (.record ⟨db_share.id, req.fileId, user_id, req.oneTimeAccess, true⟩) 3600
    .ok ({ db := { st.db with shares := st.db.shares ++ [db_share] },
           cache := cache' }, db_share)

/-- `FileShareService.get_share_by_token`: lookup by token alone, reject an
inactive share, lazily expire a share whose `expires_at` has passed. -/
def get_share_by_token (st : SysState) (now : Nat) (share_token : String) :
    SysState × Option FileShare :=
  match st.db.shares.find? (fun s => s.shareToken == share_token) with
  | none => (st, none)
  | some share =>
    if share.isActive = false then (st, none)
    else
      match share.expiresAt with
      | some e =>
        if e < now then
          ({ st with db :=
              updateShare st.db share.id (fun s => { s with isActive := false }) },
           none)
        else (st, some share)
      | none => (st, some share)

/-- `FileShareService.validate_share_token`: cache first; on miss query the
store for the token with `is_active == True`; lazily expire; otherwise cache
the projection (TTL 3600) and return it.  A cache hit is returned as-is
(`if cached_share:` — `cache_get` never yields a falsy value). -/
def validate_share_token (st : SysState) (now : Nat) (share_token : String) :
    SysState × Option (ShareInfo ⊕ String) :=
  match cache_get st.cache (tokenKey share_token) with
  | some cached => (st, some cached)
  | none =>
    match st.db.shares.find?
        (fun s => s.shareToken == share_token && s.isActive) with
    | none => (st, none)
    | some share =>
      match share.expiresAt with
      | some e =>
        if e < now then
          ({ st with db :=
              updateShare st.db share.id (fun s => { s with isActive := false }) },
           none)
        else
          let share_info : ShareInfo :=
            ⟨share.id, share.fileId, share.userId, share.oneTimeAccess, true⟩
          ({ st with cache :=
              cache_set st.cache (tokenKey share_token) (.record share_info) 3600 },
           some (.inl share_info))
      | none =>
        let share_info : ShareInfo :=
          ⟨share.id, share.fileId, share.userId, share.oneTimeAccess, true⟩
        ({ st with cache :=
            cache_set st.cache (tokenKey share_token) (.record share_info) 3600 },
         some (.inl share_info))

/-- `FileShareService.record_access`: if a share with the id exists,
increment its `download_count`, and when it is one-time, set
`is_active = False` and evict its cache entry; then unconditionally append
an `AccessLog` row with `success = True`. -/
def record_access (st : SysState) (share_id : Nat)
    (ip_address user_agent : Option String) : SysState :=
  let st1 :=
    match st.db.shares.find? (fun s => s.id == share_id) with
    | none => st
    | some share =>
      let db' := updateShare st.db share.id (fun s =>
        { s with
          downloadCount := s.downloadCount + 1
          isActive := if s.oneTimeAccess then false else s.isActive })
      let cache' :=
        if share.oneTimeAccess then
          cache_delete st.cache (tokenKey share.shareToken)
        else st.cache
      { db := db', cache := cache' }
  { st1 with db := { st1.db with
      accessLogs := st1.db.accessLogs ++
        [⟨share_id, ip_address, user_agent, true⟩] } }

/-- `FileShareService.disable_share`: only a share whose `user_id` matches
the caller is found; deactivate it, evict its cache entry, report `true`;
otherwise report `false` untouched. -/
def disable_share (st : SysState) (share_id : Nat) (user_id : Nat) :
    SysState × Bool :=
  match st.db.shares.find?
      (fun s => s.id == share_id && s.userId == user_id) with
  | none => (st, false)
  | some share =>
    ({ db := updateShare st.db share.id (fun s => { s with isActive := false })
       cache := cache_delete st.cache (tokenKey share.shareToken) }, true)

/-- Insert into a list kept in descending `created_at` order. -/
def insertByCreatedDesc (s : FileShare) : List FileShare → List FileShare
  | [] => [s]
  | t :: ts =>
    if t.createdAt ≤ s.createdAt then s :: t :: ts
    else t :: insertByCreatedDesc s ts

/-- Sort by `created_at` descending (`order_by(FileShare.created_at.desc())`). -/
def sortByCreatedDesc : List FileShare → List FileShare
  | [] => []
  | s :: ss => insertByCreatedDesc s (sortByCreatedDesc ss)

/-- `FileShareService.get_user_shares`: all of a user's shares, newest
first.  Read-only. -/
def get_user_shares (st : SysState) (user_id : Nat) : List FileShare :=
  sortByCreatedDesc (st.db.shares.filter (fun s => s.userId == user_id))

/-! ## Interleaved executions of `record_access` on a one-time share

`record_access` on a one-time share decomposes, at the storage layer, into
two store operations: the query `db.query(FileShare).filter(...).first()`
that loads a snapshot of the row, and the `db.commit()` that writes back
`download_count = snapshot + 1, is_active = False` computed from that
snapshot.  Several concurrent calls interleave these two steps freely; the
model below tracks the authoritative row (`count`, `active`) and each
in-flight call's loaded snapshot. -/

/-- What one `record_access` call's query loads from the one-time share's
row: its `download_count` and `is_active` at the moment of the read. -/
abbrev Snapshot := Option (Nat × Bool)

/-- The one-time share's row plus the per-call snapshots of the in-flight
`record_access` calls (`snaps.get? i = some none` — call `i` has not read
yet). -/
structure OneTimeRun where
  count : Nat
  active : Bool
  snaps : List Snapshot
deriving Repr, DecidableEq

/-- One storage-layer step of some in-flight call: its row query or its
commit. -/
inductive Event where
  | read (i : Nat)
  | write (i : Nat)
deriving Repr, DecidableEq

/-- Execute one step.  A `read` loads the row into the call's snapshot; a
`write` commits the update computed from the snapshot — the increment uses
the snapshot's count, and `is_active` is set to `False` unconditionally
because the share is one-time (`if share.one_time_access: share.is_active
= False`).  A `write` before the call's `read` has nothing to commit. -/
def stepOneTime (st : OneTimeRun) (e : Event) : OneTimeRun :=
  match e with
  | .read i => { st with snaps := st.snaps.set i (some (st.count, st.active)) }
  | .write i =>
    match st.snaps[i]? with
    | some (some (c, _)) => { st with count := c + 1, active := false }
    | _ => st

/-- Execute an interleaving of storage-layer steps. -/
def runOneTime (st : OneTimeRun) (trace : List Event) : OneTimeRun :=
  trace.foldl stepOneTime st

/-! ## Helper lemmas -/

theorem cache_lookup_set_self (c : Cache) (k : String) (v : StoredVal) (e : Nat) :
    cache_lookup (cache_set c k v e) k = some v := by
  simp [cache_lookup, cache_set]

theorem cache_lookup_delete_self (c : Cache) (k : String) :
    cache_lookup (cache_delete c k) k = none := by
  induction c with
  | nil => rfl
  | cons a as ih =>
    by_cases h : a.key = k
    · simp only [cache_delete, List.filter_cons, h, bne_self_eq_false,
        Bool.false_eq_true, if_false]
      exact ih
    · simp [cache_delete, cache_lookup, List.filter_cons, List.find?_cons, h]

/-- `find?` by id over an update-by-id map: the first row matching the id is
replaced by its updated image, provided the update preserves ids. -/
theorem find?_id_update (l : List FileShare) (sid : Nat) (sh : FileShare)
    (f : FileShare → FileShare) (hid : ∀ s, (f s).id = s.id)
    (hfind : l.find? (fun s => s.id == sid) = some sh) :
    (l.map (fun s => if s.id = sh.id then f s else s)).find?
      (fun s => s.id == sid) = some (f sh) := by
  have hsh : sh.id = sid := by simpa using List.find?_some hfind
  induction l with
  | nil => simp at hfind
  | cons a as ih =>
    by_cases ha : a.id = sid
    · rw [List.find?_cons_of_pos _ (by simpa using ha)] at hfind
      obtain rfl : a = sh := by injection hfind
      simp only [List.map_cons, if_pos rfl]
      exact List.find?_cons_of_pos _ (by simp [hid, hsh])
    · rw [List.find?_cons_of_neg _ (by simpa using ha)] at hfind
      have hne : a.id ≠ sh.id := by rw [hsh]; exact ha
      simp only [List.map_cons, if_neg hne]
      rw [List.find?_cons_of_neg _ (by simpa using ha)]
      exact ih hfind

/-- Branch equation: a cache hit is returned as-is, state untouched. -/
theorem validate_hit (st : SysState) (now : Nat) (token : String)
    (v : ShareInfo ⊕ String)
    (h : cache_get st.cache (tokenKey token) = some v) :
    validate_share_token st now token = (st, some v) := by
  unfold validate_share_token
  rw [h]

/-- Branch equation: cache miss and no active share with the token. -/
theorem validate_miss_none (st : SysState) (now : Nat) (token : String)
    (h1 : cache_get st.cache (tokenKey token) = none)
    (h2 : st.db.shares.find? (fun s => s.shareToken == token && s.isActive) = none) :
    validate_share_token st now token = (st, none) := by
  unfold validate_share_token
  rw [h1, h2]

/-- Branch equation: cache miss, active share found, expiry in the past —
lazy expiry persists `is_active = false` and reports not-found. -/
theorem validate_miss_expired (st : SysState) (now : Nat) (token : String)
    (sh : FileShare) (e : Nat)
    (h1 : cache_get st.cache (tokenKey token) = none)
    (h2 : st.db.shares.find? (fun s => s.shareToken == token && s.isActive) = some sh)
    (h3 : sh.expiresAt = some e) (h4 : e < now) :
    validate_share_token st now token =
      (⟨updateShare st.db sh.id (fun s => { s with isActive := false }),
        st.cache⟩, none) := by
  unfold validate_share_token
  rw [h1, h2]
  simp only [h3]
  rw [if_pos h4]

/-- Branch equation: cache miss, active unexpired share — the projection is
cached with a 3600-second TTL and returned. -/
theorem validate_miss_active (st : SysState) (now : Nat) (token : String)
    (sh : FileShare)
    (h1 : cache_get st.cache (tokenKey token) = none)
    (h2 : st.db.shares.find? (fun s => s.shareToken == token && s.isActive) = some sh)
    (h3 : ∀ e, sh.expiresAt = some e → ¬ e < now) :
    validate_share_token st now token =
      (⟨st.db,
        cache_set st.cache (tokenKey token)
          (.record ⟨sh.id, sh.fileId, sh.userId, sh.oneTimeAccess, true⟩) 3600⟩,
       some (.inl ⟨sh.id, sh.fileId, sh.userId, sh.oneTimeAccess, true⟩)) := by
  unfold validate_share_token
  rw [h1, h2]
  cases hexp : sh.expiresAt with
  | none => simp only [hexp]
  | some e =>
    simp only [hexp]
    rw [if_neg (h3 e hexp)]

/-! ## Claims -/

/-- **C1**: for every share id matching an existing share, `record_access`
increments that share's `download_count` by exactly one, and when the share
is one-time it additionally sets `is_active` to false and deletes the cache
entry keyed by the share's token before returning. -/
theorem c1_record_access_consumes (st : SysState) (share_id : Nat)
    (ip ua : Option String) (sh : FileShare)
    (hfind : st.db.shares.find? (fun s => s.id == share_id) = some sh) :
    (record_access st share_id ip ua).db.shares.find?
        (fun s => s.id == share_id) =
      some { sh with
        downloadCount := sh.downloadCount + 1
        isActive := if sh.oneTimeAccess then false else sh.isActive } ∧
    (sh.oneTimeAccess = true →
      cache_lookup (record_access st share_id ip ua).cache
        (tokenKey sh.shareToken) = none) := by
  unfold record_access
  rw [hfind]
  constructor
  · exact find?_id_update st.db.shares share_id sh _ (fun s => rfl) hfind
  · intro hone
    simp only [hone, if_pos]
    exact cache_lookup_delete_self _ _

def c1share : FileShare :=
  { id := 1, userId := 7, fileId := "f", fileName := "n", fileSize := 3,
    fileHash := "h", shareToken := "tk", isActive := true, downloadCount := 0,
    oneTimeAccess := true, expiresAt := none, createdAt := 0 }

def c1st : SysState :=
  { db := { shares := [c1share], accessLogs := [] },
    cache := [⟨tokenKey "tk", .record ⟨1, "f", 7, true, true⟩, 3600⟩] }

/-- Witness for C1 at a concrete one-time share. -/
theorem c1_record_access_consumes_witness :
    (record_access c1st 1 none none).db.shares.find? (fun s => s.id == 1) =
      some { c1share with
        downloadCount := c1share.downloadCount + 1
        isActive := if c1share.oneTimeAccess then false else c1share.isActive } ∧
    cache_lookup (record_access c1st 1 none none).cache (tokenKey "tk") = none := by
  obtain ⟨h1, h2⟩ := c1_record_access_consumes c1st 1 none none c1share rfl
  exact ⟨h1, h2 rfl⟩

/-- **C10**: `record_access` appends an `AccessLog` row with
`success = true`, recording the given ip and user agent, regardless of
whether the share lookup by id succeeded — in particular also when no share
with the given id exists. -/
theorem c10_access_always_logged (st : SysState) (share_id : Nat)
    (ip ua : Option String) :
    (record_access st share_id ip ua).db.accessLogs =
      st.db.accessLogs ++ [⟨share_id, ip, ua, true⟩] := by
  unfold record_access
  cases h : st.db.shares.find? (fun s => s.id == share_id) <;>
    simp [h, updateShare]

def c6cache : Cache := [⟨"share_token:t", .rawNonJson "not json", 3600⟩]

/-- **C6 counterexample**: a cached value on which JSON decoding fails is
*not* treated as a cache miss — `cache_get` hands the caller the raw
undecodable string instead of absence. -/
theorem c6_decode_failure_not_a_miss :
    cache_get c6cache "share_token:t" = some (.inr "not json") ∧
    cache_get c6cache "share_token:t" ≠ none := by
  refine ⟨rfl, ?_⟩
  intro h
  rw [show cache_get c6cache "share_token:t" = some (.inr "not json") from rfl]
    at h
  exact Option.noConfusion h

/-- **C6 amended**: when the stored value fails JSON decoding, `cache_get`
returns the raw string itself (a miss only for the empty string, which is
falsy); absence is observed only when the key is not present at all. -/
theorem c6_amended_raw_value_returned (c : Cache) (k s : String)
    (hlook : cache_lookup c k = some (.rawNonJson s)) :
    cache_get c k = if s = "" then none else some (.inr s) := by
  unfold cache_get
  rw [hlook]

/-- Witness for the amended C6 at a concrete undecodable cache value. -/
theorem c6_amended_raw_value_returned_witness :
    cache_get c6cache "share_token:t" = some (.inr "not json") := by
  rw [c6_amended_raw_value_returned c6cache "share_token:t" "not json" rfl]
  rfl

def c7share : FileShare :=
  { id := 1, userId := 1, fileId := "f", fileName := "n", fileSize := 1,
    fileHash := "h", shareToken := "t0", isActive := true, downloadCount := 0,
    oneTimeAccess := false, expiresAt := none, createdAt := 0 }

def c7st : SysState := { db := { shares := [c7share], accessLogs := [] }, cache := [] }

def c7req : CreateShareRequest :=
  { fileId := "f2", fileName := "n2", fileSize := 2, fileHash := "h2" }

/-- **C7 counterexample**: a single token collision *is* fatal —
`create_share` makes one insert attempt and surfaces the uniqueness
violation immediately, even though a retry with the next generated token
would succeed. -/
theorem c7_single_collision_is_fatal :
    create_share c7st 5 2 c7req "t0" = .error () ∧
    ∃ r, create_share c7st 5 2 c7req "t1" = .ok r :=
  ⟨rfl, ⟨_, rfl⟩⟩

/-- **C7 amended**: `create_share` generates a single token and performs a
single insert: when the store already holds a share with that token the
call surfaces a fatal error immediately, with no regeneration and no retry;
with a non-colliding token it succeeds. -/
theorem c7_amended_no_retry (st : SysState) (now uid : Nat)
    (req : CreateShareRequest) (tok : String) :
    (st.db.shares.any (fun s => s.shareToken == tok) = true →
      create_share st now uid req tok = .error ()) ∧
    (st.db.shares.any (fun s => s.shareToken == tok) = false →
      ∃ r, create_share st now uid req tok = .ok r) := by
  refine ⟨fun h => ?_, fun h => ?_⟩
  · unfold create_share
    rw [if_pos h]
  · unfold create_share
    rw [if_neg (by simp [h])]
    exact ⟨_, rfl⟩

/-- Witness for the amended C7: concrete colliding and fresh tokens. -/
theorem c7_amended_no_retry_witness :
    create_share c7st 5 2 c7req "t0" = .error () ∧
    ∃ r, create_share c7st 5 2 c7req "t1" = .ok r :=
  ⟨(c7_amended_no_retry c7st 5 2 c7req "t0").1 rfl,
   (c7_amended_no_retry c7st 5 2 c7req "t1").2 rfl⟩

def c3req : CreateShareRequest :=
  { fileId := "f1", fileName := "a.pdf", fileSize := 1024, fileHash := "abc123",
    oneTimeAccess := false, expiresInHours := some 0 }

def emptyState : SysState := { db := { shares := [], accessLogs := [] }, cache := [] }

/-- **C3** (documents the code bug): a share created with
`expires_in_hours = 0` is stored with `expires_at = None` — the truthiness
test `if share_request.expires_in_hours:` treats `0` like absence — so the
share never expires: validating it arbitrarily far in the future (here at
time 1000000, long past the creation instant 100) still returns the active
projection and leaves the stored row with `is_active = true`, where the
specification demands not-found and a persisted `is_active = false`. -/
theorem c3_zero_hours_never_expires :
    ∃ st' sh, create_share emptyState 100 1 c3req "tok" = .ok (st', sh) ∧
      sh.expiresAt = none ∧
      (validate_share_token { db := st'.db, cache := [] } 1000000 "tok").2 =
        some (.inl ⟨1, "f1", 1, false, true⟩) ∧
      ∀ s ∈ (validate_share_token { db := st'.db, cache := [] }
          1000000 "tok").1.db.shares, s.isActive = true := by
  exact ⟨_, _, rfl, rfl, rfl, by decide⟩

/-- **C2**: on a cache miss, `validate_share_token` queries the durable
store for a share with the token and `is_active = true`; if none exists it
returns not-found; if the share's `expires_at` lies in the past it persists
`is_active = false` and returns not-found; otherwise it writes a cache
entry with a 3600-second (1-hour) TTL and returns the share projection. -/
theorem c2_validate_cache_miss (st : SysState) (now : Nat) (token : String)
    (hmiss : cache_get st.cache (tokenKey token) = none) :
    (st.db.shares.find? (fun s => s.shareToken == token && s.isActive) = none →
      validate_share_token st now token = (st, none)) ∧
    (∀ sh e,
      st.db.shares.find? (fun s => s.shareToken == token && s.isActive) = some sh →
      sh.expiresAt = some e → e < now →
      validate_share_token st now token =
        (⟨updateShare st.db sh.id (fun s => { s with isActive := false }),
          st.cache⟩,
         none)) ∧
    (∀ sh,
      st.db.shares.find? (fun s => s.shareToken == token && s.isActive) = some sh →
      (∀ e, sh.expiresAt = some e → ¬ e < now) →
      validate_share_token st now token =
        (⟨st.db,
          cache_set st.cache (tokenKey token)
            (.record ⟨sh.id, sh.fileId, sh.userId, sh.oneTimeAccess, true⟩) 3600⟩,
         some (.inl ⟨sh.id, sh.fileId, sh.userId, sh.oneTimeAccess, true⟩))) := by
  refine ⟨fun hnone => ?_, fun sh e hfind hexp hlt => ?_, fun sh hfind hnexp => ?_⟩
  · exact validate_miss_none st now token hmiss hnone
  · exact validate_miss_expired st now token sh e hmiss hfind hexp hlt
  · exact validate_miss_active st now token sh hmiss hfind hnexp

def c2share : FileShare :=
  { id := 4, userId := 2, fileId := "fx", fileName := "nx", fileSize := 9,
    fileHash := "hx", shareToken := "te", isActive := true, downloadCount := 0,
    oneTimeAccess := false, expiresAt := some 50, createdAt := 10 }

def c2st : SysState := { db := { shares := [c2share], accessLogs := [] }, cache := [] }

/-- Witness for C2: lazy expiry of a concrete past-expiry share. -/
theorem c2_validate_cache_miss_witness :
    validate_share_token c2st 100 "te" =
      (⟨updateShare c2st.db c2share.id (fun s => { s with isActive := false }),
        c2st.cache⟩,
       none) :=
  (c2_validate_cache_miss c2st 100 "te" rfl).2.1 c2share 50 rfl rfl (by decide)

/-- **C5**: a cache hit makes `validate_share_token` return the cached
value with the state untouched (no durable-store read or write, no
`expires_at` check — the result does not depend on `now`); and every cache
entry the engine itself writes (on creation and on the cache-miss
validation path) carries `is_active = true`, so a share whose `expires_at`
has passed keeps validating as active while its cache entry lives, the
stored row's `is_active` staying true meanwhile. -/
theorem c5_cache_hit_bypasses_store :
    (∀ (st : SysState) (now : Nat) (token : String) v,
      cache_get st.cache (tokenKey token) = some v →
      validate_share_token st now token = (st, some v)) ∧
    (∀ (st : SysState) (now uid : Nat) (req : CreateShareRequest)
        (tok : String) (st' : SysState) (sh : FileShare),
      create_share st now uid req tok = .ok (st', sh) →
      cache_lookup st'.cache (tokenKey tok) =
        some (.record ⟨sh.id, req.fileId, uid, req.oneTimeAccess, true⟩)) ∧
    (∀ (st : SysState) (now : Nat) (token : String) (st' : SysState)
        (info : ShareInfo),
      cache_get st.cache (tokenKey token) = none →
      validate_share_token st now token = (st', some (.inl info)) →
      info.isActive = true ∧
      cache_lookup st'.cache (tokenKey token) = some (.record info)) := by
  refine ⟨fun st now token v hhit => validate_hit st now token v hhit,
    fun st now uid req tok st' sh h => ?_,
    fun st now token st' info hmiss hval => ?_⟩
  · cases hc : st.db.shares.any (fun s => s.shareToken == tok) with
    | true =>
      simp [create_share, hc] at h
    | false =>
      simp only [create_share, hc, Bool.false_eq_true, if_false,
        Except.ok.injEq, Prod.mk.injEq] at h
      obtain ⟨hst, hsh⟩ := h
      subst hst
      subst hsh
      exact cache_lookup_set_self st.cache (tokenKey tok) _ 3600
  · cases hfind : st.db.shares.find?
        (fun s => s.shareToken == token && s.isActive) with
    | none =>
      rw [validate_miss_none st now token hmiss hfind] at hval
      exact absurd hval (by simp)
    | some share =>
      by_cases hex : ∃ e, share.expiresAt = some e ∧ e < now
      · obtain ⟨e, hexp, hlt⟩ := hex
        rw [validate_miss_expired st now token share e hmiss hfind hexp hlt] at hval
        exact absurd hval (by simp)
      · push_neg at hex
        rw [validate_miss_active st now token share hmiss hfind
          (fun e he => Nat.not_lt.mpr (hex e he))] at hval
        simp only [Prod.mk.injEq, Option.some.injEq, Sum.inl.injEq] at hval
        obtain ⟨hst, hinfo⟩ := hval
        subst hst
        subst hinfo
        exact ⟨rfl, cache_lookup_set_self st.cache (tokenKey token) _ 3600⟩

def c5share : FileShare :=
  { id := 9, userId := 3, fileId := "f", fileName := "n", fileSize := 1,
    fileHash := "h", shareToken := "tc", isActive := true, downloadCount := 0,
    oneTimeAccess := false, expiresAt := some 10, createdAt := 0 }

/-- An expired-but-still-cached share: `expires_at = 10` lies far in the
past of the validation instant 1000, yet the cache entry is live. -/
def c5st : SysState :=
  { db := { shares := [c5share], accessLogs := [] },
    cache := [⟨tokenKey "tc", .record ⟨9, "f", 3, false, true⟩, 3600⟩] }

def c5shareMiss : FileShare :=
  { id := 5, userId := 3, fileId := "g", fileName := "m", fileSize := 2,
    fileHash := "k", shareToken := "tm", isActive := true, downloadCount := 0,
    oneTimeAccess := false, expiresAt := none, createdAt := 0 }

def c5stMiss : SysState :=
  { db := { shares := [c5shareMiss], accessLogs := [] }, cache := [] }

/-- Witness for C5: an expired share with a live cache entry still
validates as active with the state (hence the stored `is_active = true`)
untouched; and the entry written on a concrete cache miss is active. -/
theorem c5_cache_hit_bypasses_store_witness :
    validate_share_token c5st 1000 "tc" =
      (c5st, some (.inl ⟨9, "f", 3, false, true⟩)) ∧
    cache_lookup (validate_share_token c5stMiss 1000 "tm").1.cache
      (tokenKey "tm") = some (.record ⟨5, "g", 3, false, true⟩) := by
  refine ⟨c5_cache_hit_bypasses_store.1 c5st 1000 "tc" _ rfl, ?_⟩
  exact (c5_cache_hit_bypasses_store.2.2 c5stMiss 1000 "tm" _ _ rfl rfl).2

/-- **C8**: `disable_share` succeeds iff a share with the id exists whose
`user_id` matches the caller (denial leaves the state untouched), and it
never alters any share's `download_count` — in particular disabling an
already-inactive share still succeeds and keeps the count. -/
theorem c8_disable_share_owner_only (st : SysState) (share_id user_id : Nat) :
    ((disable_share st share_id user_id).2 = true ↔
      ∃ sh ∈ st.db.shares, sh.id = share_id ∧ sh.userId = user_id) ∧
    ((disable_share st share_id user_id).2 = false →
      disable_share st share_id user_id = (st, false)) ∧
    (disable_share st share_id user_id).1.db.shares.map
        (fun s => (s.id, s.downloadCount)) =
      st.db.shares.map (fun s => (s.id, s.downloadCount)) := by
  cases hfind : st.db.shares.find?
      (fun s => s.id == share_id && s.userId == user_id) with
  | none =>
    have hnone := List.find?_eq_none.mp hfind
    refine ⟨?_, fun _ => ?_, ?_⟩
    · unfold disable_share
      rw [hfind]
      constructor
      · intro h
        exact absurd h (by simp)
      · rintro ⟨x, hx, h1, h2⟩
        exact absurd (by simp [h1, h2] :
          (x.id == share_id && x.userId == user_id) = true) (hnone x hx)
    · unfold disable_share
      rw [hfind]
    · unfold disable_share
      rw [hfind]
  | some sh =>
    have hmem : sh ∈ st.db.shares := List.mem_of_find?_eq_some hfind
    have hp : sh.id = share_id ∧ sh.userId = user_id := by
      simpa using List.find?_some hfind
    refine ⟨?_, fun h => ?_, ?_⟩
    · unfold disable_share
      rw [hfind]
      exact iff_of_true rfl ⟨sh, hmem, hp.1, hp.2⟩
    · unfold disable_share at h
      rw [hfind] at h
      simp at h
    · unfold disable_share
      rw [hfind]
      simp only [updateShare, List.map_map]
      refine List.map_congr_left ?_
      intro a _
      by_cases ha : a.id = sh.id <;> simp [Function.comp, ha]

def c8share : FileShare :=
  { id := 6, userId := 2, fileId := "f", fileName := "n", fileSize := 1,
    fileHash := "h", shareToken := "td", isActive := false, downloadCount := 5,
    oneTimeAccess := false, expiresAt := none, createdAt := 0 }

def c8st : SysState := { db := { shares := [c8share], accessLogs := [] }, cache := [] }

/-- Witness for C8: the owner disabling an already-inactive share still
succeeds and the count survives; a non-owner is denied with no change. -/
theorem c8_disable_share_owner_only_witness :
    (disable_share c8st 6 2).2 = true ∧
    (disable_share c8st 6 2).1.db.shares.map (fun s => (s.id, s.downloadCount)) =
      c8st.db.shares.map (fun s => (s.id, s.downloadCount)) ∧
    disable_share c8st 6 3 = (c8st, false) := by
  refine ⟨?_, (c8_disable_share_owner_only c8st 6 2).2.2, ?_⟩
  · exact (c8_disable_share_owner_only c8st 6 2).1.mpr
      ⟨c8share, by simp [c8st], rfl, rfl⟩
  · exact (c8_disable_share_owner_only c8st 6 3).2.1 rfl

/-! ## C9: the engine's operations never reactivate a share -/

/-- One engine operation, as invoked by the HTTP layer. -/
inductive Op where
  | create (now user_id : Nat) (req : CreateShareRequest) (token : String)
  | getByToken (now : Nat) (token : String)
  | validate (now : Nat) (token : String)
  | recordAccess (share_id : Nat) (ip ua : Option String)
  | disable (share_id user_id : Nat)
  | listShares (user_id : Nat)

/-- The state after one operation (a create rejected by the unique index
leaves the state unchanged, the exception propagating to the caller). -/
def applyOp (st : SysState) : Op → SysState
  | .create now uid req tok =>
    match create_share st now uid req tok with
    | .ok (st', _) => st'
    | .error _ => st
  | .getByToken now tok => (get_share_by_token st now tok).1
  | .validate now tok => (validate_share_token st now tok).1
  | .recordAccess sid ip ua => record_access st sid ip ua
  | .disable sid uid => (disable_share st sid uid).1
  | .listShares _ => st

/-- **C9**: after any engine operation the share rows are the previous rows
transformed by an id-preserving function that never turns an inactive share
active, plus possibly freshly created rows, which are active — so
`is_active = false` is a one-way transition and a share is active only from
its creation. -/
theorem c9_inactive_is_terminal (st : SysState) (op : Op) :
    ∃ (g : FileShare → FileShare) (tail : List FileShare),
      (applyOp st op).db.shares = st.db.shares.map g ++ tail ∧
      (∀ s, (g s).id = s.id ∧ ((g s).isActive = true → s.isActive = true)) ∧
      (∀ s ∈ tail, s.isActive = true) := by
  cases op with
  | create now uid req tok =>
    cases hres : create_share st now uid req tok with
    | error e =>
      exact ⟨id, [], by simp [applyOp, hres], fun s => ⟨rfl, fun h => h⟩, by simp⟩
    | ok p =>
      obtain ⟨st', sh⟩ := p
      have hsh : st'.db.shares = st.db.shares ++ [sh] ∧ sh.isActive = true := by
        cases hc : st.db.shares.any (fun s => s.shareToken == tok) with
        | true => simp [create_share, hc] at hres
        | false =>
          simp only [create_share, hc, Bool.false_eq_true, if_false,
            Except.ok.injEq, Prod.mk.injEq] at hres
          obtain ⟨h1, h2⟩ := hres
          subst h1
          subst h2
          exact ⟨rfl, rfl⟩
      refine ⟨id, [sh], ?_, fun s => ⟨rfl, fun h => h⟩, ?_⟩
      · simp [applyOp, hres, hsh.1]
      · simpa using hsh.2
  | getByToken now tok =>
    cases hfind : st.db.shares.find? (fun s => s.shareToken == tok) with
    | none =>
      exact ⟨id, [], by simp [applyOp, get_share_by_token, hfind],
        fun s => ⟨rfl, fun h => h⟩, by simp⟩
    | some share =>
      cases hact : share.isActive with
      | false =>
        exact ⟨id, [], by simp [applyOp, get_share_by_token, hfind, hact],
          fun s => ⟨rfl, fun h => h⟩, by simp⟩
      | true =>
        cases hexp : share.expiresAt with
        | none =>
          exact ⟨id, [], by simp [applyOp, get_share_by_token, hfind, hact, hexp],
            fun s => ⟨rfl, fun h => h⟩, by simp⟩
        | some e =>
          by_cases hlt : e < now
          · refine ⟨fun s => if s.id = share.id then { s with isActive := false }
              else s, [], ?_, ?_, by simp⟩
            · simp [applyOp, get_share_by_token, hfind, hact, hexp, hlt, updateShare]
            · intro s
              by_cases h : s.id = share.id <;> simp [h]
          · exact ⟨id, [],
              by simp [applyOp, get_share_by_token, hfind, hact, hexp, hlt],
              fun s => ⟨rfl, fun h => h⟩, by simp⟩
  | validate now tok =>
    cases hhit : cache_get st.cache (tokenKey tok) with
    | some v =>
      exact ⟨id, [], by simp [applyOp, validate_hit st now tok v hhit],
        fun s => ⟨rfl, fun h => h⟩, by simp⟩
    | none =>
      cases hfind : st.db.shares.find?
          (fun s => s.shareToken == tok && s.isActive) with
      | none =>
        exact ⟨id, [], by simp [applyOp, validate_miss_none st now tok hhit hfind],
          fun s => ⟨rfl, fun h => h⟩, by simp⟩
      | some share =>
        by_cases hex : ∃ e, share.expiresAt = some e ∧ e < now
        · obtain ⟨e, hexp, hlt⟩ := hex
          refine ⟨fun s => if s.id = share.id then { s with isActive := false }
            else s, [], ?_, ?_, by simp⟩
          · simp [applyOp,
              validate_miss_expired st now tok share e hhit hfind hexp hlt,
              updateShare]
          · intro s
            by_cases h : s.id = share.id <;> simp [h]
        · push_neg at hex
          exact ⟨id, [],
            by simp [applyOp, validate_miss_active st now tok share hhit hfind
              (fun e he => Nat.not_lt.mpr (hex e he))],
            fun s => ⟨rfl, fun h => h⟩, by simp⟩
  | recordAccess sid ip ua =>
    cases hfind : st.db.shares.find? (fun s => s.id == sid) with
    | none =>
      exact ⟨id, [], by simp [applyOp, record_access, hfind],
        fun s => ⟨rfl, fun h => h⟩, by simp⟩
    | some share =>
      refine ⟨fun s => if s.id = share.id then
          { s with
            downloadCount := s.downloadCount + 1
            isActive := if s.oneTimeAccess then false else s.isActive }
        else s, [], ?_, ?_, by simp⟩
      · simp [applyOp, record_access, hfind, updateShare]
      · intro s
        constructor
        · by_cases h : s.id = share.id <;> simp [h]
        · by_cases h : s.id = share.id
          · cases ho : s.oneTimeAccess <;> simp [h, ho]
          · simp [h]
  | disable sid uid =>
    cases hfind : st.db.shares.find? (fun s => s.id == sid && s.userId == uid) with
    | none =>
      exact ⟨id, [], by simp [applyOp, disable_share, hfind],
        fun s => ⟨rfl, fun h => h⟩, by simp⟩
    | some share =>
      refine ⟨fun s => if s.id = share.id then { s with isActive := false }
        else s, [], ?_, ?_, by simp⟩
      · simp [applyOp, disable_share, hfind, updateShare]
      · intro s
        by_cases h : s.id = share.id <;> simp [h]
  | listShares uid =>
    exact ⟨id, [], by simp [applyOp], fun s => ⟨rfl, fun h => h⟩, by simp⟩

/-- **C4 (amended)**: under interleaved `record_access` executions on a
one-time share, deactivation is unconditional, so the row is inactive the
moment any call's commit lands and stays inactive under every further step
— the terminal-state invariant holds — while reads change nothing. -/
theorem c4_one_time_terminal_state :
    (∀ (st : OneTimeRun) (trace : List Event),
      st.active = false → (runOneTime st trace).active = false) ∧
    (∀ (st : OneTimeRun) (i c : Nat) (a : Bool),
      st.snaps[i]? = some (some (c, a)) →
      (stepOneTime st (.write i)).active = false) ∧
    (∀ (st : OneTimeRun) (i : Nat),
      (stepOneTime st (.read i)).active = st.active ∧
      (stepOneTime st (.read i)).count = st.count) := by
  refine ⟨?_, ?_, fun st i => ⟨rfl, rfl⟩⟩
  · intro st trace h
    induction trace generalizing st with
    | nil => exact h
    | cons e es ih =>
      show (runOneTime (stepOneTime st e) es).active = false
      apply ih
      cases e with
      | read i => simpa [stepOneTime] using h
      | write i =>
        cases hs : st.snaps[i]? with
        | none => simpa [stepOneTime, hs] using h
        | some snap =>
          cases snap with
          | none => simpa [stepOneTime, hs] using h
          | some p =>
            obtain ⟨c, a⟩ := p
            simp [stepOneTime, hs]
  · intro st i c a hs
    simp [stepOneTime, hs]

/-- Witness for the amended C4: a concrete completed consumption leaves the
share inactive, and it stays inactive under a further interleaved attempt. -/
theorem c4_one_time_terminal_state_witness :
    (runOneTime ⟨1, false, [none]⟩ [.read 0, .write 0]).active = false ∧
    (stepOneTime ⟨0, true, [some (0, true)]⟩ (.write 0)).active = false :=
  ⟨c4_one_time_terminal_state.1 ⟨1, false, [none]⟩ [.read 0, .write 0] rfl,
   c4_one_time_terminal_state.2.1 ⟨0, true, [some (0, true)]⟩ 0 0 true rfl⟩

/-- **C4 counterexample**: the deactivating check-and-set of
`record_access` is not atomic at the storage layer — in the interleaving
read₀, read₁, write₀, write₁ of two concurrent calls on a fresh one-time
share, both calls observe the share active at their check before either
deactivation commits (so more than one call is a "winning" consumption by
observation), and the two increments land as one (a lost update). -/
theorem c4_check_and_set_not_atomic :
    (runOneTime ⟨0, true, [none, none]⟩ [.read 0, .read 1]).snaps =
      [some (0, true), some (0, true)] ∧
    (runOneTime ⟨0, true, [none, none]⟩
      [.read 0, .read 1, .write 0, .write 1]).count = 1 :=
  ⟨rfl, rfl⟩

end SecureShare
